import Mathlib

/-!
Verification of the Anomaly Events backend (src/main.py, src/schemas.py).

The Python handlers are shallowly embedded as pure Lean functions over an
explicit document-store state.  Nondeterministic inputs of the code — the
PRNG draw behind random.randint, the wall clock, and the behaviour of the
external Twilio provider — are passed in as explicit arguments.  Machine
details that no claim touches (event ticket_price, a float) are omitted and
noted where they would appear.
-/

namespace AnomalyBackend

/-! ## Python string primitives -/

/-- Python str.strip() on a list of characters: drop whitespace from both
ends.  (Python also strips vertical tab and form feed; no claim involves
those characters.) -/
def pyStrip (l : List Char) : List Char :=
  ((l.dropWhile Char.isWhitespace).reverse.dropWhile Char.isWhitespace).reverse

/-- Python str.lower(), per character. -/
def pyLower (s : String) : String := String.mk (s.data.map Char.toLower)

/-- Python str.upper(), per character. -/
def pyUpper (s : String) : String := String.mk (s.data.map Char.toUpper)

/-- Fuel-driven accumulation of the decimal digits of n, most significant
first.  The fuel makes the recursion structural; pyStr supplies n + 1 fuel,
enough since a positive number has at most n decimal digits. -/
def pyStrAux : Nat → Nat → List Char
  | 0, _ => []
  | fuel + 1, n => if n = 0 then [] else pyStrAux fuel (n / 10) ++ [Nat.digitChar (n % 10)]

/-- Python str(n) for a nonnegative integer n: its decimal rendering. -/
def pyStr (n : Nat) : String :=
  if n = 0 then "0" else String.mk (pyStrAux (n + 1) n)

/-! ## Phone Normalizer (main.py, _normalize_phone) -/

/-- The body of _normalize_phone on the character list of the input:
keep the digits; a trimmed input starting with a plus keeps only its
digits behind a plus; ten digits get the US prefix; otherwise a plus is
prepended unless the digit list already starts with one (the dead defensive
branch of the source, reproduced literally). -/
def normalizeChars (l : List Char) : List Char :=
  if (pyStrip l).head? = some '+' then
    '+' :: l.filter Char.isDigit
  else if (l.filter Char.isDigit).length = 10 then
    '+' :: '1' :: l.filter Char.isDigit
  else if (l.filter Char.isDigit).head? = some '+' then l.filter Char.isDigit
  else '+' :: l.filter Char.isDigit

/-- main.py _normalize_phone. -/
def _normalize_phone (phone : String) : String :=
  String.mk (normalizeChars phone.data)

/-- The normalizer as the spec words it (section 4.1): strip non-digits to
obtain digits; plus-prefixed input maps to a plus before the digits; exactly
ten digits get a US prefix; otherwise a plus before the digits.  Stated
separately from the source embedding so conformance is a real comparison. -/
def normalizeSpec (raw : String) : String :=
  let digits := String.mk (raw.data.filter Char.isDigit)
  if (pyStrip raw.data).head? = some '+' then "+" ++ digits
  else if digits.length = 10 then "+1" ++ digits
  else "+" ++ digits

/-! ## Verification codes (main.py, str(random.randint(100000, 999999))) -/

/-- random.randint(100000, 999999) applied to a PRNG draw r: a uniform draw
lands on 100000 + r mod 900000. -/
def randint6 (r : Nat) : Nat := 100000 + r % 900000

/-- The verification code issued for PRNG draw r, as register_contact and
send_verification compute it: str(random.randint(100000, 999999)). -/
def genCode (r : Nat) : String := pyStr (randint6 r)

/-! ## Documents (schemas.py) -/

/-- schemas.py Contact.  updated_at is set by update_one rather than the
schema and so starts absent. -/
structure Contact where
  name : String
  phone : String
  email : Option String := none
  headshot_url : Option String := none
  city : Option String := none
  state : Option String := none
  segment : String := "local"
  brand_queue : String := "anomaly"
  status : String := "pending"
  phone_verified : Bool := false
  referral_code : Option String := none
  referred_by : Option String := none
  verification_code : Option String := none
  updated_at : Option Nat := none
deriving DecidableEq, Repr

/-- schemas.py Event.  Instants are Nat timestamps; ticket_price (a float no
claim touches) is omitted from the embedding. -/
structure Event where
  name : String
  date : Nat
  type : String := "club"
  flyer_url : Option String := none
  gate_code : Option String := none
  status : String := "scheduled"
deriving DecidableEq, Repr

/-- schemas.py Rsvp.  contact_id and event_id are stored as the raw request
strings, exactly as upsert_rsvp stores them. -/
structure Rsvp where
  contact_id : String
  event_id : String
  status : String := "no_response"
  qr_code_token : Option String := none
  sent_gate_code : Bool := false
  updated_at : Option Nat := none
deriving DecidableEq, Repr

/-- One entry of an SmsMessage logs sequence, as the webhook pushes it; the
source dict keys are status, at, to, error_code (timestamp here stands for
the key at). -/
structure SmsLogEntry where
  status : Option String := none
  timestamp : Nat := 0
  «to» : Option String := none
  error_code : Option String := none
deriving DecidableEq, Repr

/-- schemas.py Smsmessage.  to, body and purpose are optional here because a
webhook upsert can create a row carrying none of them. -/
structure Smsmessage where
  «to» : Option String := none
  body : Option String := none
  purpose : Option String := none
  status : Option String := some "queued"
  provider_message_sid : Option String := none
  error_code : Option String := none
  error_message : Option String := none
  logs : List SmsLogEntry := []
  updated_at : Option Nat := none
deriving DecidableEq, Repr

/-! ## The document store -/

/-- Modelled from the spec: the persistence collaborator (database.py, not
under src/), specified as a document store with find-one, insert and
field-level update-by-filter.  Each collection is a list of (id, document)
pairs in insertion order; nextId supplies fresh ids. -/
structure DB where
  contacts : List (Nat × Contact) := []
  events : List (Nat × Event) := []
  rsvps : List (Nat × Rsvp) := []
  smsmessages : List (Nat × Smsmessage) := []
  nextId : Nat := 0
deriving DecidableEq, Repr

/-- Modelled from the spec: find_one of the document store — the first
stored document matching the filter, in insertion order. -/
def findOne (l : List (Nat × α)) (p : Nat × α → Bool) : Option (Nat × α) := l.find? p

/-- Modelled from the spec: update_one of the document store — rewrite the
first element matching the filter and leave everything else in place. -/
def updateFirst (p : α → Bool) (f : α → α) : List α → List α
  | [] => []
  | x :: xs => if p x then f x :: xs else x :: updateFirst p f xs

/-- Modelled from the spec: create_document of database.py — insert one new
document under a fresh id and return that id. -/
def insertContact (db : DB) (c : Contact) : Nat × DB :=
  (db.nextId, { db with contacts := db.contacts ++ [(db.nextId, c)], nextId := db.nextId + 1 })

/-- Modelled from the spec: create_document for the rsvp collection. -/
def insertRsvp (db : DB) (r : Rsvp) : Nat × DB :=
  (db.nextId, { db with rsvps := db.rsvps ++ [(db.nextId, r)], nextId := db.nextId + 1 })

/-- Modelled from the spec: create_document for the smsmessage collection. -/
def insertSms (db : DB) (m : Smsmessage) : Nat × DB :=
  (db.nextId, { db with smsmessages := db.smsmessages ++ [(db.nextId, m)], nextId := db.nextId + 1 })

/-- Modelled from the spec: the bson ObjectId constructor of the external
persistence collaborator, a partial parse of the id string that raises on a
malformed one.  Ids are Nat here, so it is modelled as a decimal parse; the
claims rely only on its partiality and on equal strings parsing equally. -/
def objectIdOf? (s : String) : Option Nat :=
  if s.data ≠ [] ∧ (∀ c ∈ s.data, c.isDigit = true) then
    some (s.data.foldl (fun n c => 10 * n + (c.toNat - 48)) 0)
  else none

/-! ## Requests, responses and errors (main.py) -/

structure RegistrationRequest where
  name : String
  phone : String
  email : Option String := none
  headshot_url : Option String := none
  city : Option String := none
  state : Option String := none
  brand_queue : Option String := some "anomaly"
  referred_by : Option String := none
deriving DecidableEq, Repr

structure VerifyConfirmRequest where
  phone : String
  code : String
deriving DecidableEq, Repr

structure RsvpRequest where
  contact_id : String
  event_id : String
  status : String
deriving DecidableEq, Repr

structure WebhookForm where
  MessageSid : Option String := none
  MessageStatus : Option String := none
  To : Option String := none
  ErrorCode : Option String := none
deriving DecidableEq, Repr

structure RegisterResponse where
  id : String
  phone : String
  message : String
deriving DecidableEq, Repr

structure MessageResponse where
  message : String
deriving DecidableEq, Repr

structure ConfirmResponse where
  message : String
  contact_id : String
deriving DecidableEq, Repr

structure RsvpResponse where
  id : String
  status : String
deriving DecidableEq, Repr

structure WebhookAck where
  ok : Bool
deriving DecidableEq, Repr

structure HTTPException where
  status : Nat
  detail : String
deriving DecidableEq, Repr

/-- What a handler can raise: an HTTPException of main.py, or a pydantic
ValidationError escaping the handler when a schemas.py Literal field is
handed a value outside its alternatives. -/
inductive ApiError where
  | http (e : HTTPException)
  | validation (field : String)
deriving DecidableEq, Repr

/-- The outcome of one attempted provider send: no provider configured
(twilio_client or TWILIO_FROM_NUMBER absent), a successful send returning a
sid, or the provider raising. -/
inductive SmsOutcome where
  | noProvider
  | sent (sid : String)
  | raised (err : String)
deriving DecidableEq, Repr

/-! ## Operations (main.py handlers) -/

/-- main.py _send_sms: normalize the recipient; with a configured provider
log a sent row carrying the returned sid and return the sid; with none log a
queued row; when the provider raises, catch everything and log a failed row
with the captured message; the two no-sid paths return nothing. -/
def _send_sms (env : SmsOutcome) («to» body purpose : String) (db : DB) : Option String × DB :=
  let to_norm := _normalize_phone «to»
  match env with
  | .sent sid =>
      let (_, db) := insertSms db { «to» := some to_norm, body := some body, purpose := some purpose,
                                    status := some "sent", provider_message_sid := some sid }
      (some sid, db)
  | .noProvider =>
      let (_, db) := insertSms db { «to» := some to_norm, body := some body, purpose := some purpose,
                                    status := some "queued" }
      (none, db)
  | .raised e =>
      let (_, db) := insertSms db { «to» := some to_norm, body := some body, purpose := some purpose,
                                    status := some "failed", error_message := some e }
      (none, db)

/-- The local jurisdiction codes of register_contact. -/
def localStates : List String := ["CA", "NY", "NV", "WA", "OR", "TX", "FL"]

/-- The segment computation of register_contact:
"local" if (payload.state or "").strip().upper() is a local code. -/
def segmentOf (state : Option String) : String :=
  if pyUpper (String.mk (pyStrip (state.getD "").data)) ∈ localStates then "local"
  else "out_of_state"

/-- Python (v or d) for an optional string v: None and the empty string are
falsy and fall back to the default d. -/
def orDefault (v : Option String) (d : String) : String :=
  match v with
  | none => d
  | some s => if s = "" then d else s

/-- The brand_queue alternatives of the schemas.py Literal. -/
def brandQueues : List String := ["anomaly", "arcane"]

/-- The Rsvp status alternatives of the schemas.py Literal. -/
def rsvpStatuses : List String := ["yes", "not_this_time", "no_response"]

/-- main.py register_contact.  r is the PRNG draw behind random.randint and
now the wall clock reading. -/
def register_contact (env : SmsOutcome) (r now : Nat) (payload : RegistrationRequest) (db : DB) :
    Except ApiError (RegisterResponse × DB) :=
  let phone := _normalize_phone payload.phone
  match findOne db.contacts (fun p => p.2.phone == phone) with
  | some (cid, _) =>
      let code := genCode r
      let contacts2 := updateFirst (fun p => p.1 == cid)
        (fun p => (p.1, { p.2 with verification_code := some code, updated_at := some now }))
        db.contacts
      let db := { db with contacts := contacts2 }
      let (_, db) := _send_sms env phone ("Anomaly verification code: " ++ code) "verify" db
      .ok ({ id := pyStr cid, phone := phone, message := "Contact exists, verification re-sent" }, db)
  | none =>
      let code := genCode r
      let segment := segmentOf payload.state
      let bq := pyLower (orDefault payload.brand_queue "anomaly")
      if bq ∈ brandQueues then
        let contact : Contact :=
          { name := payload.name, phone := phone, email := payload.email,
            headshot_url := payload.headshot_url, city := payload.city, state := payload.state,
            brand_queue := bq, segment := segment, status := "pending", phone_verified := false,
            referred_by := payload.referred_by, verification_code := some code }
        let (contact_id, db) := insertContact db contact
        let (_, db) := _send_sms env phone ("Anomaly verification code: " ++ code) "verify" db
        .ok ({ id := pyStr contact_id, phone := phone,
               message := "Registration received. Verification sent." }, db)
      else
        .error (.validation "brand_queue")

/-- main.py send_verification. -/
def send_verification (env : SmsOutcome) (r now : Nat) (payloadPhone : String) (db : DB) :
    Except ApiError (MessageResponse × DB) :=
  let phone := _normalize_phone payloadPhone
  match findOne db.contacts (fun p => p.2.phone == phone) with
  | none => .error (.http ⟨404, "Contact not found"⟩)
  | some (cid, _) =>
      let code := genCode r
      let contacts2 := updateFirst (fun p => p.1 == cid)
        (fun p => (p.1, { p.2 with verification_code := some code, updated_at := some now }))
        db.contacts
      let db := { db with contacts := contacts2 }
      let (_, db) := _send_sms env phone ("Anomaly verification code: " ++ code) "verify" db
      .ok ({ message := "Verification sent" }, db)

/-- main.py confirm_verification.  The submitted code is compared by string
equality against the stored optional code; a cleared (absent) code matches
nothing. -/
def confirm_verification (now : Nat) (payload : VerifyConfirmRequest) (db : DB) :
    Except ApiError (ConfirmResponse × DB) :=
  let phone := _normalize_phone payload.phone
  match findOne db.contacts (fun p => p.2.phone == phone) with
  | none => .error (.http ⟨404, "Contact not found"⟩)
  | some (cid, c) =>
      if some payload.code ≠ c.verification_code then
        .error (.http ⟨400, "Invalid verification code"⟩)
      else
        let contacts2 := updateFirst (fun p => p.1 == cid)
          (fun p => (p.1, { p.2 with phone_verified := true, verification_code := none, updated_at := some now }))
          db.contacts
        let db := { db with contacts := contacts2 }
        .ok ({ message := "Phone verified", contact_id := pyStr cid }, db)

/-- main.py upsert_rsvp.  Both ids are parsed first (400 on a malformed
one); the contact is checked before the event; the existing rsvp row is
looked up by the raw request string pair and updated in place, otherwise a
new row is inserted (whose construction validates the status Literal). -/
def upsert_rsvp (now : Nat) (payload : RsvpRequest) (db : DB) :
    Except ApiError (RsvpResponse × DB) :=
  match objectIdOf? payload.contact_id, objectIdOf? payload.event_id with
  | some contact_id, some event_id =>
      if (findOne db.contacts (fun p => p.1 == contact_id)).isNone then
        .error (.http ⟨404, "Contact not found"⟩)
      else if (findOne db.events (fun p => p.1 == event_id)).isNone then
        .error (.http ⟨404, "Event not found"⟩)
      else
        match findOne db.rsvps
            (fun p => p.2.contact_id == payload.contact_id && p.2.event_id == payload.event_id) with
        | some (rid, _) =>
            let rsvps2 := updateFirst (fun p => p.1 == rid)
              (fun p => (p.1, { p.2 with status := payload.status, updated_at := some now }))
              db.rsvps
            let db := { db with rsvps := rsvps2 }
            .ok ({ id := pyStr rid, status := payload.status }, db)
        | none =>
            if payload.status ∈ rsvpStatuses then
              let (rsvp_id, db) := insertRsvp db
                { contact_id := payload.contact_id, event_id := payload.event_id,
                  status := payload.status }
              .ok ({ id := pyStr rsvp_id, status := payload.status }, db)
            else .error (.validation "status")
  | _, _ => .error (.http ⟨400, "Invalid IDs"⟩)

/-- main.py sms_status_webhook.  A missing MessageSid acknowledges without
touching the store (a missing form value and an empty one are both falsy in
the source guard); otherwise the row keyed by provider_message_sid has its
status and updated_at set and one entry pushed onto logs, a new row being
created when no row carries that sid (update_one with upsert). -/
def sms_status_webhook (now : Nat) (form : WebhookForm) (db : DB) : WebhookAck × DB :=
  match form.MessageSid with
  | none => ({ ok := true }, db)
  | some sid =>
      if sid = "" then ({ ok := true }, db)
      else
        let entry : SmsLogEntry :=
          { status := form.MessageStatus, timestamp := now, «to» := form.To,
            error_code := form.ErrorCode }
        if (findOne db.smsmessages (fun p => p.2.provider_message_sid == some sid)).isSome then
          let sms2 := updateFirst (fun p => p.2.provider_message_sid == some sid)
            (fun p => (p.1, { p.2 with status := form.MessageStatus, updated_at := some now, logs := p.2.logs ++ [entry] }))
            db.smsmessages
          ({ ok := true }, { db with smsmessages := sms2 })
        else
          let row : Smsmessage := { provider_message_sid := some sid, status := form.MessageStatus,
                                    updated_at := some now, logs := [entry] }
          ({ ok := true },
           { db with smsmessages := db.smsmessages ++ [(db.nextId, row)], nextId := db.nextId + 1 })


/-! ## Derived observations of the store -/

/-- The first stored rsvp row matching a request-string pair. -/
def findRsvpPair (db : DB) (c e : String) : Option (Nat × Rsvp) :=
  findOne db.rsvps (fun p => p.2.contact_id == c && p.2.event_id == e)

/-- How many stored rsvp rows match a request-string pair. -/
def rsvpCount (db : DB) (c e : String) : Nat :=
  (db.rsvps.filter (fun p => p.2.contact_id == c && p.2.event_id == e)).length

/-- The first stored contact whose phone field equals the given phone. -/
def findContactByPhone (db : DB) (phone : String) : Option (Nat × Contact) :=
  findOne db.contacts (fun p => p.2.phone == phone)

/-- The stored contact under a record id. -/
def findContactById (db : DB) (cid : Nat) : Option (Nat × Contact) :=
  findOne db.contacts (fun p => p.1 == cid)

/-- The response component of a handler outcome, as the HTTP layer sees it. -/
def respOf {α : Type} (x : Except ApiError (α × DB)) : Except ApiError α := x.map Prod.fst

/-- The first stored sms row carrying a provider sid. -/
def findSmsBySid (db : DB) (sid : String) : Option (Nat × Smsmessage) :=
  findOne db.smsmessages (fun p => p.2.provider_message_sid == some sid)

/-- Once a contact record is verified, some record under the same id stays
verified in the later store. -/
def VerifiedPreserved (db db' : DB) : Prop :=
  ∀ k c, (k, c) ∈ db.contacts → c.phone_verified = true →
    ∃ c', (k, c') ∈ db'.contacts ∧ c'.phone_verified = true

/-! ## Concrete data for witnesses -/

/-- A concrete store for witnesses: one contact, one event, no rsvps yet. -/
def witnessContact : Contact := { name := "Ana", phone := "+15550001111" }

def witnessEvent : Event := { name := "Night", date := 10 }

def witnessDB : DB := { contacts := [(0, witnessContact)], events := [(1, witnessEvent)], nextId := 2 }

def witnessRsvpReq : RsvpRequest := { contact_id := "0", event_id := "1", status := "yes" }

/-- witnessDB after the first upsert: one rsvp row under id 2. -/
def witnessDB1 : DB :=
  { contacts := [(0, witnessContact)], events := [(1, witnessEvent)],
    rsvps := [(2, { contact_id := "0", event_id := "1", status := "yes" })], nextId := 3 }

/-! ## Character facts -/

lemma isDigit_not_whitespace {c : Char} (h : c.isDigit = true) : c.isWhitespace = false := by
  rcases Bool.eq_false_or_eq_true c.isWhitespace with hw | hw
  · exfalso
    simp only [Char.isWhitespace, Bool.or_eq_true, decide_eq_true_eq] at hw
    rcases hw with ((rfl | rfl) | rfl) | rfl <;> exact absurd h (by decide)
  · exact hw

lemma isDigit_ne_plus {c : Char} (h : c.isDigit = true) : c ≠ '+' := by
  rintro rfl; exact absurd h (by decide)

/-! ## Shape of the normalizer output -/

/-- Every output of the normalizer is a plus sign followed by digits only. -/
lemma normalizeChars_shape (l : List Char) :
    ∃ ds, normalizeChars l = '+' :: ds ∧ ∀ c ∈ ds, c.isDigit = true := by
  unfold normalizeChars
  have hall : ∀ c ∈ l.filter Char.isDigit, c.isDigit = true :=
    fun c hc => List.of_mem_filter hc
  split
  · exact ⟨l.filter Char.isDigit, rfl, hall⟩
  split
  · refine ⟨'1' :: l.filter Char.isDigit, rfl, ?_⟩
    intro c hc
    rw [List.mem_cons] at hc
    rcases hc with rfl | hc
    · decide
    · exact hall _ hc
  split
  · rename_i hplus
    exact absurd (hall _ (List.mem_of_mem_head? (by rw [hplus]; rfl))) (by decide)
  · exact ⟨l.filter Char.isDigit, rfl, hall⟩

lemma pyStrip_plus_digits {ds : List Char} (hds : ∀ c ∈ ds, c.isDigit = true) :
    pyStrip ('+' :: ds) = '+' :: ds := by
  unfold pyStrip
  have h1 : List.dropWhile Char.isWhitespace ('+' :: ds) = '+' :: ds := by
    rw [List.dropWhile_cons, if_neg (by decide)]
  rw [h1]
  have h2 : List.dropWhile Char.isWhitespace (('+' :: ds).reverse) = ('+' :: ds).reverse := by
    rw [List.dropWhile_eq_self_iff]
    intro hl hhead
    have hmem : ('+' :: ds).reverse.get ⟨0, hl⟩ ∈ '+' :: ds := by
      rw [← List.mem_reverse]; exact List.get_mem _ _ _
    rw [List.mem_cons] at hmem
    rcases hmem with heq | hmem
    · rw [heq] at hhead; exact absurd hhead (by decide)
    · exact absurd hhead (by rw [isDigit_not_whitespace (hds _ hmem)]; decide)
  rw [h2, List.reverse_reverse]

lemma filter_plus_digits {ds : List Char} (hds : ∀ c ∈ ds, c.isDigit = true) :
    List.filter Char.isDigit ('+' :: ds) = ds := by
  rw [List.filter_cons, if_neg (by decide)]
  exact List.filter_eq_self.mpr hds

lemma normalizeChars_idem (l : List Char) :
    normalizeChars (normalizeChars l) = normalizeChars l := by
  obtain ⟨ds, ho, hds⟩ := normalizeChars_shape l
  rw [ho]
  unfold normalizeChars
  rw [pyStrip_plus_digits hds, filter_plus_digits hds]
  simp

/-! ## Decimal rendering and the code generator -/

lemma pyStrAux_eq_digits (fuel : Nat) : ∀ n, n ≤ fuel →
    pyStrAux fuel n = (Nat.digits 10 n).reverse.map Nat.digitChar := by
  induction fuel with
  | zero =>
    intro n hn
    have : n = 0 := Nat.le_zero.mp hn
    subst this
    simp [pyStrAux]
  | succ fuel ih =>
    intro n hn
    unfold pyStrAux
    by_cases hz : n = 0
    · subst hz; simp
    · rw [if_neg hz, ih (n / 10) ?_, Nat.digits_def' (by norm_num) (Nat.pos_of_ne_zero hz)]
      · simp
      · have hlt : n / 10 < n := Nat.div_lt_self (Nat.pos_of_ne_zero hz) (by norm_num)
        omega

lemma pyStr_eq_digits {n : Nat} (hn : n ≠ 0) :
    pyStr n = String.mk ((Nat.digits 10 n).reverse.map Nat.digitChar) := by
  rw [pyStr, if_neg hn, pyStrAux_eq_digits (n + 1) n (Nat.le_succ n)]

lemma randint6_mem (r : Nat) : 100000 ≤ randint6 r ∧ randint6 r ≤ 999999 := by
  unfold randint6
  have : r % 900000 < 900000 := Nat.mod_lt r (by norm_num)
  omega

lemma digits_randint6_length (r : Nat) : (Nat.digits 10 (randint6 r)).length = 6 := by
  obtain ⟨h1, h2⟩ := randint6_mem r
  rw [Nat.digits_len 10 _ (by norm_num) (by omega)]
  have : Nat.log 10 (randint6 r) = 5 :=
    Nat.log_eq_of_pow_le_of_lt_pow (by norm_num; omega) (by norm_num; omega)
  omega

lemma genCode_length (r : Nat) : (genCode r).length = 6 := by
  obtain ⟨h1, _⟩ := randint6_mem r
  rw [genCode, pyStr_eq_digits (by omega)]
  show ((Nat.digits 10 (randint6 r)).reverse.map Nat.digitChar).length = 6
  rw [List.length_map, List.length_reverse, digits_randint6_length]

lemma genCode_head_ne_zero (r : Nat) : (genCode r).data.head? ≠ some '0' := by
  obtain ⟨h1, _⟩ := randint6_mem r
  have hnz : randint6 r ≠ 0 := by omega
  rw [genCode, pyStr_eq_digits hnz]
  show ((Nat.digits 10 (randint6 r)).reverse.map Nat.digitChar).head? ≠ some '0'
  have hne : Nat.digits 10 (randint6 r) ≠ [] := Nat.digits_ne_nil_iff_ne_zero.mpr hnz
  rw [List.head?_map, List.head?_reverse,
      List.getLast?_eq_getLast _ hne]
  intro h
  have hlast := Nat.getLast_digit_ne_zero 10 hnz
  have hmem : (Nat.digits 10 (randint6 r)).getLast hne ∈ Nat.digits 10 (randint6 r) :=
    List.getLast_mem hne
  have hlt : (Nat.digits 10 (randint6 r)).getLast hne < 10 :=
    Nat.digits_lt_base (by norm_num) hmem
  have hchar : Nat.digitChar ((Nat.digits 10 (randint6 r)).getLast hne) = '0' :=
    Option.some.inj h
  have hgen : ∀ d : Nat, d < 10 → d ≠ 0 → Nat.digitChar d ≠ '0' := by decide
  exact hgen _ hlt hlast hchar

lemma genCode_all_digits (r : Nat) : ∀ c ∈ (genCode r).data, c.isDigit = true := by
  obtain ⟨h1, _⟩ := randint6_mem r
  have hnz : randint6 r ≠ 0 := by omega
  rw [genCode, pyStr_eq_digits hnz]
  intro c hc
  have hc2 : c ∈ (Nat.digits 10 (randint6 r)).reverse.map Nat.digitChar := hc
  rcases List.mem_map.mp hc2 with ⟨d, hd, rfl⟩
  have hlt : d < 10 := Nat.digits_lt_base (by norm_num) (List.mem_reverse.mp hd)
  have hdig : ∀ e : Nat, e < 10 → (Nat.digitChar e).isDigit = true := by decide
  exact hdig d hlt

lemma length_mk (l : List Char) : (String.mk l).length = l.length := rfl

lemma data_append_plus (ds : List Char) : ("+" ++ String.mk ds).data = '+' :: ds := rfl

lemma data_append_plus_one (ds : List Char) : ("+1" ++ String.mk ds).data = '+' :: '1' :: ds := rfl

/-- C4: the normalizer agrees with the spec contract on every input — strip
non-digits, keep a plus prefix, add the US country code to bare ten-digit
numbers, otherwise prepend a plus — it is total (a Lean function, defined on
empty and garbage input alike), and it maps "+15551234567" and "5551234567"
both to "+15551234567". -/
theorem normalize_conforms_to_spec (raw : String) :
    _normalize_phone raw = normalizeSpec raw ∧
    _normalize_phone "+15551234567" = "+15551234567" ∧
    _normalize_phone "5551234567" = "+15551234567" ∧
    _normalize_phone "" = "+" ∧
    _normalize_phone "garbage!" = "+" := by
  refine ⟨?_, by decide, by decide, by decide, by decide⟩
  apply String.ext
  show normalizeChars raw.data = (normalizeSpec raw).data
  unfold normalizeChars normalizeSpec
  simp only [length_mk]
  have hdead : ¬ (raw.data.filter Char.isDigit).head? = some '+' := by
    intro hplus
    have : ('+' : Char).isDigit = true :=
      List.of_mem_filter (List.mem_of_mem_head? (by rw [hplus]; rfl))
    exact absurd this (by decide)
  by_cases h1 : (pyStrip raw.data).head? = some '+'
  · simp only [if_pos h1, data_append_plus]
  · simp only [if_neg h1]
    by_cases h10 : (raw.data.filter Char.isDigit).length = 10
    · simp only [if_pos h10, data_append_plus_one]
    · simp only [if_neg h10, if_neg hdead, data_append_plus]

/-- C10: the phone normalizer is idempotent — every output is a plus sign
followed only by digits, and the normalizer maps such a string to itself. -/
theorem normalize_idempotent (s : String) :
    _normalize_phone (_normalize_phone s) = _normalize_phone s := by
  apply String.ext
  show normalizeChars (normalizeChars s.data) = normalizeChars s.data
  exact normalizeChars_idem s.data

/-- C8 (counterexample): the claim that issued codes are drawn uniformly over
all 6-digit strings with leading zeros allowed is false — the concrete
6-digit string "012345" is never produced, for any PRNG draw, because
str(random.randint(100000, 999999)) never has a leading zero. -/
theorem codes_no_leading_zero_counterexample : ¬ ∃ r : Nat, genCode r = "012345" := by
  rintro ⟨r, h⟩
  have hh : (genCode r).data.head? = ("012345" : String).data.head? :=
    congrArg (fun s : String => s.data.head?) h
  exact genCode_head_ne_zero r (hh.trans rfl)

/-- C8 (amended): every code issued by register_contact and send_verification
is str(randint(100000, 999999)) for the PRNG draw: the decimal string of a
number drawn uniformly from 100000..999999 (every value in that interval is
attainable), hence exactly 6 characters, all digits, and the leading digit is
never zero — 6-digit strings with leading zeros are never issued. -/
theorem codes_are_six_digits_no_leading_zero (r : Nat) :
    genCode r = pyStr (randint6 r) ∧
    100000 ≤ randint6 r ∧ randint6 r ≤ 999999 ∧
    (genCode r).length = 6 ∧
    (∀ c ∈ (genCode r).data, c.isDigit = true) ∧
    (genCode r).data.head? ≠ some '0' ∧
    (∀ m : Nat, 100000 ≤ m → m ≤ 999999 → ∃ u, randint6 u = m) :=
  ⟨rfl, (randint6_mem r).1, (randint6_mem r).2, genCode_length r, genCode_all_digits r,
   genCode_head_ne_zero r,
   fun m h1 h2 => ⟨m - 100000, by unfold randint6; omega⟩⟩

/-! ## Store lemmas -/

lemma updateFirst_length (p : α → Bool) (f : α → α) (l : List α) :
    (updateFirst p f l).length = l.length := by
  induction l with
  | nil => rfl
  | cons x xs ih =>
    unfold updateFirst
    split <;> simp [ih]

lemma updateFirst_of_forall_neg {p : α → Bool} (f : α → α) {l : List α}
    (h : ∀ x ∈ l, p x = false) : updateFirst p f l = l := by
  induction l with
  | nil => rfl
  | cons x xs ih =>
    unfold updateFirst
    rw [if_neg (by rw [h x (List.mem_cons_self x xs)]; exact Bool.false_ne_true),
        ih (fun y hy => h y (List.mem_cons_of_mem x hy))]

lemma updateFirst_append_left {p : α → Bool} (f : α → α) {l₁ : List α} (l₂ : List α)
    (h : ∀ x ∈ l₁, p x = false) {x : α} (hx : p x = true) :
    updateFirst p f (l₁ ++ x :: l₂) = l₁ ++ f x :: l₂ := by
  induction l₁ with
  | nil =>
    simp only [List.nil_append]
    unfold updateFirst
    rw [if_pos hx]
  | cons a as ih =>
    simp only [List.cons_append]
    unfold updateFirst
    rw [if_neg (by rw [h a (List.mem_cons_self a as)]; exact Bool.false_ne_true),
        ih (fun y hy => h y (List.mem_cons_of_mem a hy))]

lemma find?_split {l : List α} {p : α → Bool} {x : α} (h : l.find? p = some x) :
    ∃ l₁ l₂, l = l₁ ++ x :: l₂ ∧ (∀ y ∈ l₁, p y = false) ∧ p x = true := by
  induction l with
  | nil => cases h
  | cons a as ih =>
    cases hpa : p a with
    | true =>
      rw [List.find?_cons_of_pos as hpa] at h
      obtain rfl : a = x := Option.some.inj h
      exact ⟨[], as, rfl, fun y hy => absurd hy (List.not_mem_nil y), hpa⟩
    | false =>
      rw [List.find?_cons_of_neg as (by rw [hpa]; exact Bool.false_ne_true)] at h
      obtain ⟨l₁, l₂, rfl, hneg, hx⟩ := ih h
      refine ⟨a :: l₁, l₂, rfl, ?_, hx⟩
      intro y hy
      rw [List.mem_cons] at hy
      rcases hy with rfl | hy
      · exact hpa
      · exact hneg y hy

lemma find?_append_first {l₁ : List α} (l₂ : List α) {p : α → Bool}
    (h : ∀ y ∈ l₁, p y = false) {x : α} (hx : p x = true) :
    (l₁ ++ x :: l₂).find? p = some x := by
  rw [List.find?_append, List.find?_eq_none.mpr (fun y hy => by rw [h y hy]; exact Bool.false_ne_true),
      Option.none_or, List.find?_cons_of_pos l₂ hx]

lemma mem_updateFirst_of_mem {l : List α} {x : α} (hx : x ∈ l) (p : α → Bool) (f : α → α) :
    x ∈ updateFirst p f l ∨ f x ∈ updateFirst p f l := by
  induction l with
  | nil => cases hx
  | cons a as ih =>
    rw [List.mem_cons] at hx
    unfold updateFirst
    cases hpa : p a with
    | true =>
      rw [if_pos rfl]
      rcases hx with rfl | hx
      · exact Or.inr (List.mem_cons_self _ _)
      · exact Or.inl (List.mem_cons_of_mem _ hx)
    | false =>
      rw [if_neg Bool.false_ne_true]
      rcases hx with rfl | hx
      · exact Or.inl (List.mem_cons_self _ _)
      · rcases ih hx with h | h
        · exact Or.inl (List.mem_cons_of_mem _ h)
        · exact Or.inr (List.mem_cons_of_mem _ h)

/-- Splitting a keyed collection at the document find_one returns and, when
the ids are distinct, locating the subsequent update-by-id at exactly that
document. -/
lemma update_by_id_of_find {α : Type} {l : List (Nat × α)} {q : Nat × α → Bool} {k : Nat} {a : α}
    (hnd : (l.map Prod.fst).Nodup) (h : l.find? q = some (k, a)) (g : Nat × α → Nat × α) :
    ∃ l₁ l₂, l = l₁ ++ (k, a) :: l₂ ∧ (∀ y ∈ l₁, q y = false) ∧ q (k, a) = true ∧
      (∀ y ∈ l₁, (y.1 == k) = false) ∧
      updateFirst (fun p => p.1 == k) g l = l₁ ++ g (k, a) :: l₂ := by
  obtain ⟨l₁, l₂, rfl, hneg, hq⟩ := find?_split h
  have hids : ∀ y ∈ l₁, (y.1 == k) = false := by
    intro y hy
    rw [List.map_append, List.map_cons] at hnd
    have hdisj := (List.nodup_append.mp hnd).2.2
    have : y.1 ∉ (k :: l₂.map Prod.fst) := hdisj (List.mem_map_of_mem Prod.fst hy)
    have hne : y.1 ≠ k := fun he => this (he ▸ List.mem_cons_self _ _)
    exact beq_eq_false_iff_ne.mpr hne
  refine ⟨l₁, l₂, rfl, hneg, hq, hids, ?_⟩
  exact updateFirst_append_left _ l₂ hids (by simp)

/-! ## Claim C1: RSVP upsert -/

lemma count_split {α : Type} (q : α → Bool) {l₁ : List α} (l₂ : List α) {x : α}
    (hneg : ∀ y ∈ l₁, q y = false) (hx : q x = true) :
    ((l₁ ++ x :: l₂).filter q).length = 1 + (l₂.filter q).length := by
  rw [List.filter_append, List.filter_cons_of_pos hx,
      List.filter_eq_nil_iff.mpr (fun y hy => by rw [hneg y hy]; exact Bool.false_ne_true)]
  simp only [List.nil_append, List.length_cons]
  omega

lemma upsert_eval_update {now : Nat} {req : RsvpRequest} {db : DB} {cId eId rid : Nat} {r0 : Rsvp}
    (hcid : objectIdOf? req.contact_id = some cId) (heid : objectIdOf? req.event_id = some eId)
    (hc : (findOne db.contacts (fun p => p.1 == cId)).isNone = false)
    (he : (findOne db.events (fun p => p.1 == eId)).isNone = false)
    (hfind : findRsvpPair db req.contact_id req.event_id = some (rid, r0)) :
    upsert_rsvp now req db = .ok (⟨pyStr rid, req.status⟩,
      { db with rsvps := updateFirst (fun p => p.1 == rid) (fun p => (p.1, { p.2 with status := req.status, updated_at := some now })) db.rsvps }) := by
  unfold findRsvpPair at hfind
  unfold upsert_rsvp
  rw [hcid, heid]
  simp only [hc, he, Bool.false_eq_true, if_false, hfind]

lemma upsert_ok_cases {now : Nat} {req : RsvpRequest} {db : DB} {res : RsvpResponse} {db' : DB}
    (h : upsert_rsvp now req db = .ok (res, db')) :
    ∃ cId eId, objectIdOf? req.contact_id = some cId ∧ objectIdOf? req.event_id = some eId ∧
      (findOne db.contacts (fun p => p.1 == cId)).isNone = false ∧
      (findOne db.events (fun p => p.1 == eId)).isNone = false ∧
      db'.contacts = db.contacts ∧ db'.events = db.events ∧ db'.smsmessages = db.smsmessages ∧
      ((∃ rid r0, findRsvpPair db req.contact_id req.event_id = some (rid, r0) ∧
          res = ⟨pyStr rid, req.status⟩ ∧
          db'.rsvps = updateFirst (fun p => p.1 == rid) (fun p => (p.1, { p.2 with status := req.status, updated_at := some now })) db.rsvps ∧
          db'.nextId = db.nextId) ∨
       (findRsvpPair db req.contact_id req.event_id = none ∧ req.status ∈ rsvpStatuses ∧
          res = ⟨pyStr db.nextId, req.status⟩ ∧
          db'.rsvps = db.rsvps ++
            [(db.nextId, { contact_id := req.contact_id, event_id := req.event_id,
                           status := req.status })] ∧
          db'.nextId = db.nextId + 1)) := by
  unfold upsert_rsvp at h
  split at h
  case h_2 => exact Except.noConfusion h
  rename_i cId eId hcid heid
  refine ⟨cId, eId, hcid, heid, ?_⟩
  split at h
  · exact Except.noConfusion h
  split at h
  · exact Except.noConfusion h
  rename_i hcfind hefind
  simp only [Bool.not_eq_true] at hcfind hefind
  refine ⟨by simpa using hcfind, by simpa using hefind, ?_⟩
  split at h
  · rename_i rid r0 hfind
    injection h with h
    rw [Prod.mk.injEq] at h
    obtain ⟨hres, hdb⟩ := h
    subst hres
    subst hdb
    exact ⟨rfl, rfl, rfl, Or.inl ⟨rid, r0, hfind, rfl, rfl, rfl⟩⟩
  · rename_i hfind
    split at h
    · rename_i hstat
      injection h with h
      rw [Prod.mk.injEq] at h
      obtain ⟨hres, hdb⟩ := h
      subst hres
      subst hdb
      exact ⟨rfl, rfl, rfl, Or.inr ⟨hfind, hstat, rfl, rfl, rfl⟩⟩
    · exact Except.noConfusion h

/-- C1: for a (contact_id, event_id) pair, a successful upsert followed by a
second upsert with the same pair leaves exactly one stored rsvp row for the
pair (starting from a store holding at most one): the second call returns
the same record id, overwrites that row's status and update timestamp in
place, and inserts nothing. -/
theorem rsvp_upsert_idempotent_per_pair
    (now₁ now₂ : Nat) (req₁ : RsvpRequest) (s₂ : String) (db : DB)
    (hnd : (db.rsvps.map Prod.fst).Nodup)
    (hlt : ∀ k ∈ db.rsvps.map Prod.fst, k < db.nextId)
    (hcount : rsvpCount db req₁.contact_id req₁.event_id ≤ 1)
    (res₁ : RsvpResponse) (db₁ : DB)
    (h₁ : upsert_rsvp now₁ req₁ db = .ok (res₁, db₁)) :
    ∃ res₂ db₂, upsert_rsvp now₂ ⟨req₁.contact_id, req₁.event_id, s₂⟩ db₁ = .ok (res₂, db₂) ∧
      res₂.id = res₁.id ∧ res₂.status = s₂ ∧
      rsvpCount db₁ req₁.contact_id req₁.event_id = 1 ∧
      rsvpCount db₂ req₁.contact_id req₁.event_id = 1 ∧
      db₂.rsvps.length = db₁.rsvps.length ∧
      ∃ rid r₂, pyStr rid = res₁.id ∧
        findRsvpPair db₂ req₁.contact_id req₁.event_id = some (rid, r₂) ∧
        r₂.status = s₂ ∧ r₂.updated_at = some now₂ := by
  obtain ⟨cId, eId, hcid, heid, hcf, hef, hceq, heeq, _, hbranch⟩ := upsert_ok_cases h₁
  have hcf₁ : (findOne db₁.contacts (fun p => p.1 == cId)).isNone = false := by
    rw [hceq]; exact hcf
  have hef₁ : (findOne db₁.events (fun p => p.1 == eId)).isNone = false := by
    rw [heeq]; exact hef
  rcases hbranch with ⟨rid, r0, hfind, hres, hrsvps, hnext⟩ | ⟨hfind, hstat, hres, hrsvps, hnext⟩
  · obtain ⟨l₁, l₂, hsplit, hneg, hq, hids, hupd⟩ := update_by_id_of_find hnd hfind
        (fun p => (p.1, { p.2 with status := req₁.status, updated_at := some now₁ }))
    have hdb₁ : db₁.rsvps =
        l₁ ++ (rid, { r0 with status := req₁.status, updated_at := some now₁ }) :: l₂ := by
      rw [hrsvps]; exact hupd
    have hq1 : (fun p : Nat × Rsvp => p.2.contact_id == req₁.contact_id && p.2.event_id == req₁.event_id) (rid, { r0 with status := req₁.status, updated_at := some now₁ }) = true := hq
    have hfind₁ : findRsvpPair db₁ req₁.contact_id req₁.event_id =
        some (rid, { r0 with status := req₁.status, updated_at := some now₁ }) := by
      unfold findRsvpPair findOne
      rw [hdb₁]
      exact find?_append_first l₂ hneg hq1
    have hcount2 : (l₂.filter (fun p : Nat × Rsvp => p.2.contact_id == req₁.contact_id && p.2.event_id == req₁.event_id)).length = 0 := by
      have hc0 := hcount
      unfold rsvpCount at hc0
      rw [hsplit, count_split _ l₂ hneg hq] at hc0
      omega
    refine ⟨_, _, upsert_eval_update hcid heid hcf₁ hef₁ hfind₁, ?_, rfl, ?_, ?_, ?_, ?_⟩
    · rw [hres]
    · unfold rsvpCount
      rw [hdb₁, count_split _ l₂ hneg hq1, hcount2]
    · unfold rsvpCount
      show (List.filter _ (updateFirst (fun p => p.1 == rid) _ db₁.rsvps)).length = 1
      rw [hdb₁, updateFirst_append_left _ l₂ hids (by simp),
          count_split _ l₂ hneg (show (fun p : Nat × Rsvp => p.2.contact_id == req₁.contact_id && p.2.event_id == req₁.event_id) (rid, { r0 with status := s₂, updated_at := some now₂ }) = true from hq), hcount2]
    · show (updateFirst (fun p => p.1 == rid) _ db₁.rsvps).length = db₁.rsvps.length
      exact updateFirst_length _ _ _
    · refine ⟨rid, { r0 with status := s₂, updated_at := some now₂ }, by rw [hres], ?_, rfl, rfl⟩
      show findOne _ _ = _
      unfold findOne
      show (updateFirst (fun p => p.1 == rid) _ db₁.rsvps).find? _ = _
      rw [hdb₁, updateFirst_append_left _ l₂ hids (by simp)]
      exact find?_append_first l₂ hneg hq
  · have hall : ∀ y ∈ db.rsvps, (fun p : Nat × Rsvp => p.2.contact_id == req₁.contact_id && p.2.event_id == req₁.event_id) y = false := by
      intro y hy
      have hn := List.find?_eq_none.mp hfind y hy
      exact Bool.not_eq_true _ |>.mp hn
    have hq : (fun p : Nat × Rsvp => p.2.contact_id == req₁.contact_id && p.2.event_id == req₁.event_id) (db.nextId, ({ contact_id := req₁.contact_id, event_id := req₁.event_id, status := req₁.status } : Rsvp)) = true := by simp
    have hdb₁ : db₁.rsvps = db.rsvps ++ (db.nextId, ({ contact_id := req₁.contact_id, event_id := req₁.event_id, status := req₁.status } : Rsvp)) :: [] := hrsvps
    have hfind₁ : findRsvpPair db₁ req₁.contact_id req₁.event_id =
        some (db.nextId, { contact_id := req₁.contact_id, event_id := req₁.event_id, status := req₁.status }) := by
      unfold findRsvpPair findOne
      rw [hdb₁]
      exact find?_append_first [] hall hq
    have hids : ∀ y ∈ db.rsvps, (y.1 == db.nextId) = false := by
      intro y hy
      exact beq_eq_false_iff_ne.mpr (Nat.ne_of_lt (hlt y.1 (List.mem_map_of_mem Prod.fst hy)))
    refine ⟨_, _, upsert_eval_update hcid heid hcf₁ hef₁ hfind₁, ?_, rfl, ?_, ?_, ?_, ?_⟩
    · rw [hres]
    · unfold rsvpCount
      rw [hdb₁, count_split _ [] hall hq]
      rfl
    · unfold rsvpCount
      show (List.filter _ (updateFirst (fun p => p.1 == db.nextId) _ db₁.rsvps)).length = 1
      rw [hdb₁, updateFirst_append_left _ [] hids (by simp),
          count_split _ [] hall (show (fun p : Nat × Rsvp => p.2.contact_id == req₁.contact_id && p.2.event_id == req₁.event_id) (db.nextId, ({ contact_id := req₁.contact_id, event_id := req₁.event_id, status := s₂, updated_at := some now₂ } : Rsvp)) = true by simp)]
      rfl
    · show (updateFirst (fun p => p.1 == db.nextId) _ db₁.rsvps).length = db₁.rsvps.length
      exact updateFirst_length _ _ _
    · refine ⟨db.nextId, { contact_id := req₁.contact_id, event_id := req₁.event_id, status := s₂, updated_at := some now₂ }, by rw [hres], ?_, rfl, rfl⟩
      show findOne _ _ = _
      unfold findOne
      show (updateFirst (fun p => p.1 == db.nextId) _ db₁.rsvps).find? _ = _
      rw [hdb₁, updateFirst_append_left _ [] hids (by simp)]
      exact find?_append_first [] hall (by simp)

/-- C1 witness: the two-call scenario run on the concrete store. -/
theorem rsvp_upsert_idempotent_per_pair_witness :
    ∃ res₂ db₂,
      upsert_rsvp 7 ⟨witnessRsvpReq.contact_id, witnessRsvpReq.event_id, "not_this_time"⟩
        witnessDB1 = .ok (res₂, db₂) ∧
      res₂.id = RsvpResponse.id ⟨"2", "yes"⟩ ∧ res₂.status = "not_this_time" ∧
      rsvpCount witnessDB1 witnessRsvpReq.contact_id witnessRsvpReq.event_id = 1 ∧
      rsvpCount db₂ witnessRsvpReq.contact_id witnessRsvpReq.event_id = 1 ∧
      db₂.rsvps.length = witnessDB1.rsvps.length ∧
      ∃ rid r₂, pyStr rid = RsvpResponse.id ⟨"2", "yes"⟩ ∧
        findRsvpPair db₂ witnessRsvpReq.contact_id witnessRsvpReq.event_id = some (rid, r₂) ∧
        r₂.status = "not_this_time" ∧ r₂.updated_at = some 7 :=
  rsvp_upsert_idempotent_per_pair 5 7 witnessRsvpReq "not_this_time" witnessDB
    (by decide) (by decide) (by decide) ⟨"2", "yes"⟩ witnessDB1 (by rfl)

/-! ## Claim C2: confirm_verification -/

/-- C2: confirm_verification returns 404 when no contact matches the
normalized phone; 400 when the submitted code is not string-equal to the
stored optional verification_code (an absent code matches nothing, no
normalization, no expiry); and on an exact match it sets phone_verified,
clears verification_code to absent, sets the update timestamp, and returns
success carrying the contact id, touching nothing else in the store. -/
theorem confirm_verification_cases (now : Nat) (payload : VerifyConfirmRequest) (db : DB) :
    (findContactByPhone db (_normalize_phone payload.phone) = none →
      confirm_verification now payload db = .error (.http ⟨404, "Contact not found"⟩)) ∧
    (∀ cid c, findContactByPhone db (_normalize_phone payload.phone) = some (cid, c) →
      some payload.code ≠ c.verification_code →
      confirm_verification now payload db = .error (.http ⟨400, "Invalid verification code"⟩)) ∧
    (∀ cid c, findContactByPhone db (_normalize_phone payload.phone) = some (cid, c) →
      c.verification_code = some payload.code →
      (db.contacts.map Prod.fst).Nodup →
      ∃ db', confirm_verification now payload db =
          .ok ({ message := "Phone verified", contact_id := pyStr cid }, db') ∧
        db'.contacts.length = db.contacts.length ∧
        findContactById db' cid = some (cid, { c with phone_verified := true, verification_code := none, updated_at := some now }) ∧
        db'.events = db.events ∧ db'.rsvps = db.rsvps ∧ db'.smsmessages = db.smsmessages) := by
  refine ⟨?_, ?_, ?_⟩
  · intro hnone
    unfold findContactByPhone at hnone
    unfold confirm_verification
    dsimp only
    rw [hnone]
  · intro cid c hfind hne
    unfold findContactByPhone at hfind
    unfold confirm_verification
    dsimp only
    rw [hfind]
    dsimp only
    rw [if_pos hne]
  · intro cid c hfind heq hnd
    unfold findContactByPhone at hfind
    have hfind' : db.contacts.find? (fun p => p.2.phone == _normalize_phone payload.phone) = some (cid, c) := hfind
    obtain ⟨l₁, l₂, hsplit, hneg, hq, hids, hupd⟩ := update_by_id_of_find hnd hfind'
        (fun p => (p.1, { p.2 with phone_verified := true, verification_code := none, updated_at := some now }))
    refine ⟨{ db with contacts := updateFirst (fun p => p.1 == cid) (fun p => (p.1, { p.2 with phone_verified := true, verification_code := none, updated_at := some now })) db.contacts }, ?_, ?_, ?_, rfl, rfl, rfl⟩
    · unfold confirm_verification
      dsimp only
      rw [hfind]
      dsimp only
      rw [if_neg (not_not_intro heq.symm)]
    · exact updateFirst_length _ _ _
    · unfold findContactById findOne
      show (updateFirst (fun p => p.1 == cid) _ db.contacts).find? _ = _
      rw [hupd]
      exact find?_append_first l₂ hids (by simp)

/-! ## Claim C5: the SMS gateway log -/

/-- C5: every _send_sms invocation appends exactly one new SmsMessage row
(no existing row is touched and no other collection changes): a sent row
carrying the provider sid and returning it when the provider succeeds, a
failed row with the captured error message returning nothing when the send
raises, and a queued row returning nothing when no provider is configured. -/
theorem send_sms_logs_exactly_one_row (env : SmsOutcome) (t b pu : String) (db : DB) :
    ∃ row : Smsmessage,
      (_send_sms env t b pu db).2.smsmessages = db.smsmessages ++ [(db.nextId, row)] ∧
      (_send_sms env t b pu db).2.contacts = db.contacts ∧
      (_send_sms env t b pu db).2.events = db.events ∧
      (_send_sms env t b pu db).2.rsvps = db.rsvps ∧
      row.«to» = some (_normalize_phone t) ∧ row.body = some b ∧ row.purpose = some pu ∧
      (env = .noProvider → row.status = some "queued" ∧ row.provider_message_sid = none ∧
        (_send_sms env t b pu db).1 = none) ∧
      (∀ sid, env = .sent sid → row.status = some "sent" ∧ row.provider_message_sid = some sid ∧
        (_send_sms env t b pu db).1 = some sid) ∧
      (∀ e, env = .raised e → row.status = some "failed" ∧ row.error_message = some e ∧
        (_send_sms env t b pu db).1 = none) := by
  cases env with
  | noProvider =>
    refine ⟨_, rfl, rfl, rfl, rfl, rfl, rfl, rfl, ?_, ?_, ?_⟩
    · intro _; exact ⟨rfl, rfl, rfl⟩
    · intro sid h; exact SmsOutcome.noConfusion h
    · intro e h; exact SmsOutcome.noConfusion h
  | sent sid =>
    refine ⟨_, rfl, rfl, rfl, rfl, rfl, rfl, rfl, ?_, ?_, ?_⟩
    · intro h; exact SmsOutcome.noConfusion h
    · intro sid' h
      obtain rfl : sid = sid' := by injection h
      exact ⟨rfl, rfl, rfl⟩
    · intro e h; exact SmsOutcome.noConfusion h
  | raised e =>
    refine ⟨_, rfl, rfl, rfl, rfl, rfl, rfl, rfl, ?_, ?_, ?_⟩
    · intro h; exact SmsOutcome.noConfusion h
    · intro sid h; exact SmsOutcome.noConfusion h
    · intro e' h
      obtain rfl : e = e' := by injection h
      exact ⟨rfl, rfl, rfl⟩

/-! ## Claim C3: idempotent registration -/

/-- C3: registering a phone whose normalized form already has a contact
returns that contact's id, overwrites its verification_code with the fresh
code and sets its update timestamp, and inserts no new contact; registering
an unseen phone inserts exactly one unverified contact carrying the fresh
code, so a second registration of the same phone finds it and returns its
id — never two Contact records per phone. -/
theorem register_idempotent_per_phone (env : SmsOutcome) (r now : Nat)
    (payload : RegistrationRequest) (db : DB) :
    (∀ cid c, findContactByPhone db (_normalize_phone payload.phone) = some (cid, c) →
      (db.contacts.map Prod.fst).Nodup →
      ∃ db', register_contact env r now payload db =
          .ok ({ id := pyStr cid, phone := _normalize_phone payload.phone,
                 message := "Contact exists, verification re-sent" }, db') ∧
        db'.contacts.length = db.contacts.length ∧
        findContactByPhone db' (_normalize_phone payload.phone) =
          some (cid, { c with verification_code := some (genCode r), updated_at := some now })) ∧
    (findContactByPhone db (_normalize_phone payload.phone) = none →
      pyLower (orDefault payload.brand_queue "anomaly") ∈ brandQueues →
      ∃ c' db', register_contact env r now payload db =
          .ok ({ id := pyStr db.nextId, phone := _normalize_phone payload.phone,
                 message := "Registration received. Verification sent." }, db') ∧
        db'.contacts.length = db.contacts.length + 1 ∧
        findContactByPhone db' (_normalize_phone payload.phone) = some (db.nextId, c') ∧
        c'.phone_verified = false ∧ c'.verification_code = some (genCode r) ∧
        c'.phone = _normalize_phone payload.phone) := by
  constructor
  · intro cid c hfind hnd
    unfold findContactByPhone at hfind
    have hfind' : db.contacts.find? (fun p => p.2.phone == _normalize_phone payload.phone) = some (cid, c) := hfind
    obtain ⟨l₁, l₂, hsplit, hneg, hq, hids, hupd⟩ := update_by_id_of_find hnd hfind'
        (fun p => (p.1, { p.2 with verification_code := some (genCode r), updated_at := some now }))
    cases env <;>
      (unfold register_contact
       dsimp only
       rw [hfind]
       dsimp only [_send_sms, insertSms]
       refine ⟨_, rfl, updateFirst_length _ _ _, ?_⟩
       unfold findContactByPhone findOne
       show (updateFirst (fun p => p.1 == cid) _ db.contacts).find? _ = _
       rw [hupd]
       exact find?_append_first l₂ hneg hq)
  · intro hnone hbq
    unfold findContactByPhone at hnone
    have hall : ∀ y ∈ db.contacts, (fun p : Nat × Contact => p.2.phone == _normalize_phone payload.phone) y = false := by
      intro y hy
      exact Bool.not_eq_true _ |>.mp (List.find?_eq_none.mp hnone y hy)
    cases env <;>
      (unfold register_contact
       dsimp only
       rw [hnone]
       dsimp only
       rw [if_pos hbq]
       dsimp only [insertContact, _send_sms, insertSms]
       refine ⟨{ name := payload.name, phone := _normalize_phone payload.phone, email := payload.email, headshot_url := payload.headshot_url, city := payload.city, state := payload.state, brand_queue := pyLower (orDefault payload.brand_queue "anomaly"), segment := segmentOf payload.state, status := "pending", phone_verified := false, referred_by := payload.referred_by, verification_code := some (genCode r) }, _, rfl, by simp, ?_, rfl, rfl, rfl⟩
       unfold findContactByPhone findOne
       exact find?_append_first [] hall (by simp))

/-! ## Claim C6: provider failures absorbed -/

lemma respOf_ok {α : Type} {x : Except ApiError (α × DB)} {res : α} (h : respOf x = .ok res) :
    ∃ db₂, x = .ok (res, db₂) := by
  cases x with
  | error err => exact Except.noConfusion h
  | ok p =>
    cases p with
    | mk a d =>
      refine ⟨d, ?_⟩
      have ha : a = res := Except.ok.inj h
      rw [ha]

lemma register_resp_const (env : SmsOutcome) (r now : Nat) (payload : RegistrationRequest)
    (db : DB) : respOf (register_contact env r now payload db) =
      respOf (register_contact .noProvider r now payload db) := by
  unfold register_contact respOf
  dsimp only
  cases hfind : findOne db.contacts (fun p => p.2.phone == _normalize_phone payload.phone) with
  | some p =>
    cases p with
    | mk cid c => cases env <;> rfl
  | none =>
    by_cases hbq : pyLower (orDefault payload.brand_queue "anomaly") ∈ brandQueues <;>
      simp only [if_pos, if_neg, hbq] <;> cases env <;> rfl

lemma send_verification_resp_const (env : SmsOutcome) (r now : Nat) (vphone : String)
    (db : DB) : respOf (send_verification env r now vphone db) =
      respOf (send_verification .noProvider r now vphone db) := by
  unfold send_verification respOf
  dsimp only
  cases hfind : findOne db.contacts (fun p => p.2.phone == _normalize_phone vphone) with
  | some p =>
    cases p with
    | mk cid c => cases env <;> rfl
  | none => cases env <;> rfl

/-- C6: provider failures are fully absorbed — _send_sms returns normally
(no error escapes) when the provider raises, and the response of
register_contact and of send_verification is identical whatever the SMS
outcome: whenever a call with any provider outcome succeeds, the same call
with a raising provider succeeds with the same response. -/
theorem provider_failures_absorbed (e : String) (env : SmsOutcome) (r now : Nat)
    (payload : RegistrationRequest) (vphone t b pu : String) (db : DB) :
    respOf (register_contact (.raised e) r now payload db) =
      respOf (register_contact env r now payload db) ∧
    respOf (send_verification (.raised e) r now vphone db) =
      respOf (send_verification env r now vphone db) ∧
    (_send_sms (.raised e) t b pu db).1 = none ∧
    (∀ res db₁, register_contact env r now payload db = .ok (res, db₁) →
      ∃ db₂, register_contact (.raised e) r now payload db = .ok (res, db₂)) ∧
    (∀ res db₁, send_verification env r now vphone db = .ok (res, db₁) →
      ∃ db₂, send_verification (.raised e) r now vphone db = .ok (res, db₂)) := by
  have hreg : respOf (register_contact (.raised e) r now payload db) =
      respOf (register_contact env r now payload db) :=
    (register_resp_const (.raised e) r now payload db).trans
      (register_resp_const env r now payload db).symm
  have hsend : respOf (send_verification (.raised e) r now vphone db) =
      respOf (send_verification env r now vphone db) :=
    (send_verification_resp_const (.raised e) r now vphone db).trans
      (send_verification_resp_const env r now vphone db).symm
  refine ⟨hreg, hsend, rfl, ?_, ?_⟩
  · intro res db₁ h
    apply respOf_ok
    rw [hreg, h]
    rfl
  · intro res db₁ h
    apply respOf_ok
    rw [hsend, h]
    rfl

/-! ## Claim C7: the delivery status reconciler -/

/-- C7: the webhook acknowledges every callback with ok; an absent or empty
MessageSid leaves the store untouched; otherwise the row keyed by
provider_message_sid gets its status and updated_at set and exactly one
{status, timestamp, recipient, error_code} entry appended to its logs, and
a fresh row is created when no row carries that sid. -/
theorem webhook_upserts_by_sid_and_always_acks (now : Nat) (form : WebhookForm) (db : DB) :
    (sms_status_webhook now form db).1 = { ok := true } ∧
    ((form.MessageSid = none ∨ form.MessageSid = some "") →
      (sms_status_webhook now form db).2 = db) ∧
    (∀ sid, form.MessageSid = some sid → sid ≠ "" →
      ((∀ k m, findSmsBySid db sid = some (k, m) →
        ∃ m', findSmsBySid (sms_status_webhook now form db).2 sid = some (k, m') ∧
          (sms_status_webhook now form db).2.smsmessages.length = db.smsmessages.length ∧
          m'.status = form.MessageStatus ∧ m'.updated_at = some now ∧
          m'.logs = m.logs ++ [{ status := form.MessageStatus, timestamp := now, «to» := form.To, error_code := form.ErrorCode }]) ∧
      (findSmsBySid db sid = none →
        (sms_status_webhook now form db).2.smsmessages = db.smsmessages ++
          [(db.nextId, { provider_message_sid := some sid, status := form.MessageStatus, updated_at := some now, logs := [{ status := form.MessageStatus, timestamp := now, «to» := form.To, error_code := form.ErrorCode }] })]))) := by
  refine ⟨?_, ?_, ?_⟩
  · unfold sms_status_webhook
    cases form.MessageSid with
    | none => rfl
    | some sid =>
      dsimp only
      split
      · rfl
      · split <;> rfl
  · intro h
    rcases h with h | h
    · unfold sms_status_webhook
      rw [h]
    · unfold sms_status_webhook
      rw [h]
      dsimp only
      rw [if_pos rfl]
  · intro sid hsid hne
    constructor
    · intro k m hfindm
      have hfindm' : db.smsmessages.find? (fun p => p.2.provider_message_sid == some sid) = some (k, m) := hfindm
      obtain ⟨l₁, l₂, hsplit, hneg, hq⟩ := find?_split hfindm'
      have heval : sms_status_webhook now form db = ({ ok := true },
          { db with smsmessages := updateFirst (fun p => p.2.provider_message_sid == some sid) (fun p => (p.1, { p.2 with status := form.MessageStatus, updated_at := some now, logs := p.2.logs ++ [{ status := form.MessageStatus, timestamp := now, «to» := form.To, error_code := form.ErrorCode }] })) db.smsmessages }) := by
        unfold sms_status_webhook
        rw [hsid]
        dsimp only
        rw [if_neg hne]
        have hs : (findOne db.smsmessages (fun p => p.2.provider_message_sid == some sid)).isSome = true := by
          unfold findOne
          rw [hfindm']
          rfl
        rw [if_pos hs]
      rw [heval]
      refine ⟨{ m with status := form.MessageStatus, updated_at := some now, logs := m.logs ++ [{ status := form.MessageStatus, timestamp := now, «to» := form.To, error_code := form.ErrorCode }] }, ?_, ?_, rfl, rfl, rfl⟩
      · unfold findSmsBySid findOne
        show (updateFirst (fun p => p.2.provider_message_sid == some sid) _ db.smsmessages).find? _ = _
        rw [hsplit, updateFirst_append_left _ l₂ hneg hq]
        exact find?_append_first l₂ hneg hq
      · show (updateFirst _ _ db.smsmessages).length = db.smsmessages.length
        exact updateFirst_length _ _ _
    · intro hnone
      have hnone' : db.smsmessages.find? (fun p => p.2.provider_message_sid == some sid) = none := hnone
      have heval : sms_status_webhook now form db = ({ ok := true },
          { db with smsmessages := db.smsmessages ++ [(db.nextId, { provider_message_sid := some sid, status := form.MessageStatus, updated_at := some now, logs := [{ status := form.MessageStatus, timestamp := now, «to» := form.To, error_code := form.ErrorCode }] })], nextId := db.nextId + 1 }) := by
        unfold sms_status_webhook
        rw [hsid]
        dsimp only
        rw [if_neg hne]
        have hs : (findOne db.smsmessages (fun p => p.2.provider_message_sid == some sid)).isSome = false := by
          unfold findOne
          rw [hnone']
          rfl
        rw [hs, if_neg Bool.false_ne_true]
      rw [heval]

/-! ## Claim C9: verification is monotone -/

lemma verified_preserved_of_update {db : DB} {contacts' : List (Nat × Contact)}
    {p : Nat × Contact → Bool} {g : Nat × Contact → Nat × Contact}
    (h : contacts' = updateFirst p g db.contacts)
    (hg1 : ∀ x, (g x).1 = x.1)
    (hg2 : ∀ x, x.2.phone_verified = true → (g x).2.phone_verified = true) :
    ∀ k c, (k, c) ∈ db.contacts → c.phone_verified = true →
      ∃ c', (k, c') ∈ contacts' ∧ c'.phone_verified = true := by
  intro k c hmem hv
  rcases mem_updateFirst_of_mem hmem p g with hin | hin
  · exact ⟨c, h ▸ hin, hv⟩
  · rcases hgx : g (k, c) with ⟨a, b⟩
    have ha : a = k := by
      have h1 := hg1 (k, c)
      rw [hgx] at h1
      exact h1
    have hvb : b.phone_verified = true := by
      have h2 := hg2 (k, c) hv
      rw [hgx] at h2
      exact h2
    subst ha
    rw [hgx] at hin
    exact ⟨b, h ▸ hin, hvb⟩

lemma register_ok_contacts {env : SmsOutcome} {r now : Nat} {payload : RegistrationRequest}
    {db : DB} {res : RegisterResponse} {db' : DB}
    (h : register_contact env r now payload db = .ok (res, db')) :
    (∃ cid, db'.contacts = updateFirst (fun p => p.1 == cid) (fun p => (p.1, { p.2 with verification_code := some (genCode r), updated_at := some now })) db.contacts) ∨
    (∃ c, db'.contacts = db.contacts ++ [(db.nextId, c)] ∧ c.phone_verified = false) := by
  cases env <;>
    (unfold register_contact at h
     dsimp only at h
     split at h
     case _ cid c0 hfind =>
       injection h with h
       rw [Prod.mk.injEq] at h
       obtain ⟨hres, hdb⟩ := h
       subst hdb
       exact Or.inl ⟨cid, rfl⟩
     case _ hfind =>
       split at h
       · injection h with h
         rw [Prod.mk.injEq] at h
         obtain ⟨hres, hdb⟩ := h
         subst hdb
         exact Or.inr ⟨_, rfl, rfl⟩
       · exact Except.noConfusion h)

lemma send_verification_ok_contacts {env : SmsOutcome} {r now : Nat} {vphone : String}
    {db : DB} {res : MessageResponse} {db' : DB}
    (h : send_verification env r now vphone db = .ok (res, db')) :
    ∃ cid, db'.contacts = updateFirst (fun p => p.1 == cid) (fun p => (p.1, { p.2 with verification_code := some (genCode r), updated_at := some now })) db.contacts := by
  cases env <;>
    (unfold send_verification at h
     dsimp only at h
     split at h
     case _ hfind => exact Except.noConfusion h
     case _ cid c0 hfind =>
       injection h with h
       rw [Prod.mk.injEq] at h
       obtain ⟨hres, hdb⟩ := h
       subst hdb
       exact ⟨cid, rfl⟩)

lemma confirm_ok_contacts {now : Nat} {payload : VerifyConfirmRequest}
    {db : DB} {res : ConfirmResponse} {db' : DB}
    (h : confirm_verification now payload db = .ok (res, db')) :
    ∃ cid, db'.contacts = updateFirst (fun p => p.1 == cid) (fun p => (p.1, { p.2 with phone_verified := true, verification_code := none, updated_at := some now })) db.contacts := by
  unfold confirm_verification at h
  dsimp only at h
  split at h
  case _ => exact Except.noConfusion h
  case _ cid c0 hfind =>
    split at h
    · exact Except.noConfusion h
    · injection h with h
      rw [Prod.mk.injEq] at h
      obtain ⟨hres, hdb⟩ := h
      subst hdb
      exact ⟨cid, rfl⟩

lemma webhook_contacts (now : Nat) (form : WebhookForm) (db : DB) :
    (sms_status_webhook now form db).2.contacts = db.contacts := by
  unfold sms_status_webhook
  cases form.MessageSid with
  | none => rfl
  | some sid =>
    dsimp only
    split
    · rfl
    · split <;> rfl

/-- C9: no core operation reverts phone_verified — register and
send_verification resends only overwrite verification_code and updated_at,
confirm_verification only sets phone_verified to true, and the rsvp and
webhook operations leave contacts untouched, so every verified contact
record stays verified across every operation. -/
theorem verified_never_reverts (db : DB) :
    (∀ env r now payload res db', register_contact env r now payload db = .ok (res, db') →
      VerifiedPreserved db db') ∧
    (∀ env r now vphone res db', send_verification env r now vphone db = .ok (res, db') →
      VerifiedPreserved db db') ∧
    (∀ now payload res db', confirm_verification now payload db = .ok (res, db') →
      VerifiedPreserved db db') ∧
    (∀ now payload res db', upsert_rsvp now payload db = .ok (res, db') →
      VerifiedPreserved db db') ∧
    (∀ now form, VerifiedPreserved db (sms_status_webhook now form db).2) := by
  refine ⟨?_, ?_, ?_, ?_, ?_⟩
  · intro env r now payload res db' h
    rcases register_ok_contacts h with ⟨cid, hup⟩ | ⟨c, happ, hcv⟩
    · exact verified_preserved_of_update hup (fun x => rfl) (fun x hx => hx)
    · intro k c0 hmem hv
      exact ⟨c0, by rw [happ]; exact List.mem_append_left _ hmem, hv⟩
  · intro env r now vphone res db' h
    obtain ⟨cid, hup⟩ := send_verification_ok_contacts h
    exact verified_preserved_of_update hup (fun x => rfl) (fun x hx => hx)
  · intro now payload res db' h
    obtain ⟨cid, hup⟩ := confirm_ok_contacts h
    exact verified_preserved_of_update hup (fun x => rfl) (fun x hx => rfl)
  · intro now payload res db' h
    obtain ⟨cId, eId, hcid, heid, hcf, hef, hceq, heeq, hsm, hbranch⟩ := upsert_ok_cases h
    intro k c hmem hv
    exact ⟨c, hceq ▸ hmem, hv⟩
  · intro now form
    intro k c hmem hv
    exact ⟨c, (webhook_contacts now form db) ▸ hmem, hv⟩

end AnomalyBackend
